import Mathlib

/-!
Verification of the xlog structured logging library.

This file gives a shallow embedding of the core of the `xlog` Go package
(record construction in `xlog.go`, the output channel and the formatters in
`output.go`, the value serializer in `util.go`, levels in `levels.go`, and
the logstash formatter variant `logstashOutput.Write`) and proves the
specified properties about it.

Modelling conventions:
  * a Go `map[string]interface{}` (a log record, or a field set) is an
    association list `Rec` with unique keys; `setK` models map assignment
    (overwrite) and `getK` models map lookup;
  * a Go `nil` map is `Option Rec` with `none` (distinct from the empty map,
    because assigning into a nil map panics while ranging over it is a no-op);
  * dynamically typed field values are the variant type `Value`; values of
    types other than the ones the serializers inspect carry their `fmt.Sprint`
    rendering (`Value.vOther`);
  * `time.Time` is modelled as a UTC wall-clock `GoTime` with whole seconds,
    which is all the formatters of the core render;
  * panics (nil-map assignment, out-of-range string slicing) are modelled by
    `Except String` results;
  * Go string operations are modelled character-wise; for the ASCII data the
    logger produces (level names, keys) byte indexing and character indexing
    coincide.
-/

set_option autoImplicit false

namespace Xlog

/-- A UTC wall-clock instant with whole seconds, modelling the part of a Go
`time.Time` the core's formatters render. -/
structure GoTime where
  year : Nat
  month : Nat
  day : Nat
  hour : Nat
  minute : Nat
  second : Nat
  deriving DecidableEq, Repr

/-- A dynamically typed log field value (`interface{}` at the serialization
boundary).  `vErr` is a non-nil `error` whose `Error()` text is carried;
`vOther` is any other value, carrying its `fmt.Sprint` rendering. -/
inductive Value where
  | vNull
  | vStr (s : String)
  | vInt (n : Int)
  | vBool (b : Bool)
  | vErr (e : String)
  | vTime (t : GoTime)
  | vOther (r : String)
  deriving DecidableEq, Repr

/-- A log record or field set: a Go `map[string]interface{}` as an association
list with unique keys. -/
abbrev Rec : Type := List (String × Value)

/-- Map lookup: `m[k]` for a present key (first — and, with unique keys, only —
entry wins). -/
def getK : Rec → String → Option Value
  | [], _ => none
  | (a, b) :: t, k => if a = k then some b else getK t k

/-- Go map indexing `m[k]` in value position: a missing key yields the zero
value `nil`. -/
def getD (r : Rec) (k : String) : Value :=
  (getK r k).getD Value.vNull

/-- Remove every entry with the given key. -/
def eraseKey (r : Rec) (k : String) : Rec :=
  List.filter (fun p => p.1 ≠ k) r

/-- Map assignment `m[k] = v`: overwrites any existing entry for `k`. -/
def setK (r : Rec) (k : String) (v : Value) : Rec :=
  eraseKey r k ++ [(k, v)]

/-- `for k, v := range f { m[k] = v }`: merge the entries of `f` into `m`,
entries of `f` overwriting entries of `m` with the same key. -/
def mergeInto (m : Rec) (f : Rec) : Rec :=
  List.foldl (fun acc p => setK acc p.1 p.2) m f

/-- The value the merge loop leaves under key `k`: the value of the last entry
of `f` with key `k`, if any.  (A record coming from a Go map has unique keys,
so "last" is "the" entry.) -/
def lookupLast : Rec → String → Option Value
  | [], _ => none
  | (a, b) :: t, k =>
    match lookupLast t k with
    | some v => some v
    | none => if a = k then some b else none

/-! ### Levels (`levels.go`) -/

/-- `Level` is a Go `int`. -/
abbrev Level : Type := Int

def LevelDebug : Level := 0

def LevelInfo : Level := 1

def LevelWarn : Level := 2

def LevelError : Level := 3

def LevelFatal : Level := 4

/-- `Level.String`: the canonical name for the five defined values, and the
decimal representation of the underlying integer for any other value. -/
def levelString (l : Level) : String :=
  if l = LevelDebug then "debug"
  else if l = LevelInfo then "info"
  else if l = LevelWarn then "warn"
  else if l = LevelError then "error"
  else if l = LevelFatal then "fatal"
  else toString l

/-- `LevelFromString` / `UnmarshalText`: inverse of the five canonical names,
an error (`none`) otherwise. -/
def levelFromString (t : String) : Option Level :=
  if t = "debug" then some LevelDebug
  else if t = "info" then some LevelInfo
  else if t = "warn" then some LevelWarn
  else if t = "error" then some LevelError
  else if t = "fatal" then some LevelFatal
  else none

/-! ### Value serialization (`util.go`) -/

/-- `needsQuotedValueRune`: `r <= ' ' || r == '=' || r == '"'`. -/
def needsQuotedValueRune (r : Char) : Bool :=
  r.val ≤ 32 || r = '=' || r = '"'

/-- One character of Go's `encoding/json` string encoder (with its default
HTML escaping, as used by `json.Marshal`). -/
def goJSONQuoteChar (c : Char) : List Char :=
  if c = '"' then ['\\', '"']
  else if c = '\\' then ['\\', '\\']
  else if c = '\n' then ['\\', 'n']
  else if c = '\r' then ['\\', 'r']
  else if c = '\t' then ['\\', 't']
  else if c.val < 32 then
    ['\\', 'u', '0', '0', (Nat.digitChar (c.val.toNat / 16)), (Nat.digitChar (c.val.toNat % 16))]
  else if c = '<' then ['\\', 'u', '0', '0', '3', 'c']
  else if c = '>' then ['\\', 'u', '0', '0', '3', 'e']
  else if c = '&' then ['\\', 'u', '0', '0', '2', '6']
  else if c.val = 0x2028 then ['\\', 'u', '2', '0', '2', '8']
  else if c.val = 0x2029 then ['\\', 'u', '2', '0', '2', '9']
  else [c]

/-- `json.Marshal` of a string: a double-quoted JSON string literal. -/
def goJSONQuote (s : String) : String :=
  String.mk ('"' :: (s.data.flatMap goJSONQuoteChar ++ ['"']))

/-- Zero-pad to two digits (`strftime`-style field of a Go time layout). -/
def pad2 (n : Nat) : String :=
  if n < 10 then "0" ++ toString n else toString n

/-- Zero-pad to four digits (the year field of a Go time layout). -/
def pad4 (n : Nat) : String :=
  if n < 10 then "000" ++ toString n
  else if n < 100 then "00" ++ toString n
  else if n < 1000 then "0" ++ toString n
  else toString n

/-- `t.Format(time.RFC3339)` for a UTC time with whole seconds. -/
def rfc3339 (t : GoTime) : String :=
  pad4 t.year ++ "-" ++ pad2 t.month ++ "-" ++ pad2 t.day ++ "T" ++
    pad2 t.hour ++ ":" ++ pad2 t.minute ++ ":" ++ pad2 t.second ++ "Z"

/-- `ts.Format("2006/01/02 15:04:05 ")`, the console timestamp. -/
def consoleTimeString (t : GoTime) : String :=
  pad4 t.year ++ "/" ++ pad2 t.month ++ "/" ++ pad2 t.day ++ " " ++
    pad2 t.hour ++ ":" ++ pad2 t.minute ++ ":" ++ pad2 t.second ++ " "

/-- `fmt.Sprint` of one value (its default textual representation).  For the
variants whose rendering is not determined by the model (`vOther`) the
rendering is carried by the value itself. -/
def valueSprint : Value → String
  | Value.vNull => "<nil>"
  | Value.vStr s => s
  | Value.vInt n => toString n
  | Value.vBool b => if b then "true" else "false"
  | Value.vErr e => e
  | Value.vTime t =>
    pad4 t.year ++ "-" ++ pad2 t.month ++ "-" ++ pad2 t.day ++ " " ++
      pad2 t.hour ++ ":" ++ pad2 t.minute ++ ":" ++ pad2 t.second ++ " +0000 UTC"
  | Value.vOther r => r

/-- The string branch of `writeValue`: bare when no rune needs quoting,
JSON-quoted otherwise. -/
def writeString (s : String) : String :=
  if s.data.any needsQuotedValueRune then goJSONQuote s else s

/-- `writeValue` (`util.go`): `nil` as the bare token `null`; a string bare or
JSON-quoted; an error via its message string through the string rule; anything
else via `fmt.Sprint` through the string rule. -/
def writeValue : Value → String
  | Value.vNull => "null"
  | Value.vStr s => writeString s
  | Value.vErr e => writeString e
  | v => writeString (valueSprint v)

/-! ### Formatters (`output.go`) -/

/-- Lexicographic comparison of strings by code point (which for UTF-8 agrees
with Go's byte-wise string comparison). -/
def charListLe : List Char → List Char → Bool
  | [], _ => true
  | _ :: _, [] => false
  | a :: as, b :: bs =>
    if a.val < b.val then true
    else if b.val < a.val then false
    else charListLe as bs

def strLe (a b : String) : Bool :=
  charListLe a.data b.data

/-- Insert a string into a sorted list (helper of `sortStrings`). -/
def insertSorted (s : String) : List String → List String
  | [] => [s]
  | a :: t => if strLe s a then s :: a :: t else a :: insertSorted s t

/-- `sort.Strings`: sort ascending. -/
def sortStrings (l : List String) : List String :=
  List.foldr insertSorted [] l

/-- Reserved text keys excluded from the trailing `key=value` pairs. -/
def KeyTime : String := "time"

def KeyMessage : String := "message"

def KeyLevel : String := "level"

def KeyFile : String := "file"

def KeyError : String := "error"

/-- The field keys of a record other than `level`, `message` and `time`,
sorted ascending, as gathered by the logfmt and console writers. -/
def gatherKeys (r : Rec) : List String :=
  sortStrings (List.filter
    (fun k => !(k = KeyLevel || k = KeyMessage || k = KeyTime)) (r.map Prod.fst))

/-- `logfmtOutput.Write`: `level=… message=… time=…` then the remaining fields
sorted by key, space-separated, newline-terminated.  The three reserved keys
are printed even when absent, in which case Go map indexing yields `nil` and
the value serializer prints `null`. -/
def logfmtWrite (r : Rec) : String :=
  let keys := [KeyLevel, KeyMessage, KeyTime] ++ gatherKeys r
  String.intercalate (" ") (keys.map (fun k => k ++ "=" ++ writeValue (getD r k))) ++ "\n"

/-- ANSI color numbers (`util.go`). -/
def red : Nat := 31

def green : Nat := 32

def yellow : Nat := 33

def blue : Nat := 34

def gray : Nat := 37

/-- `colorPrint`: `ESC [ <two digits> m`, the text, then `ESC [0m`.  The Go
code emits the two digits of `c/10` and `c%10`, which for the two-digit color
numbers used is their decimal representation. -/
def colorPrint (s : String) (c : Nat) : String :=
  "\x1b[" ++ toString c ++ "m" ++ s ++ "\x1b[0m"

/-- `lvl[0:4]` — Go slices the string by bytes and panics when it is shorter
than four bytes.  (Level tags are ASCII, so bytes and characters coincide.) -/
def levelTag (lvl : String) : Except String String :=
  if lvl.utf8ByteSize < 4 then
    Except.error "runtime error: slice bounds out of range"
  else
    Except.ok (String.mk ((lvl.data.take 4).map Char.toUpper))

/-- `strings.Replace(msg, "\n", "\\n", -1)`. -/
def escapeNewlines (s : String) : String :=
  String.mk (s.data.flatMap (fun c => if c = '\n' then ['\\', 'n'] else [c]))

/-- `consoleOutput.Write`: timestamp, colored four-byte upper-case level tag,
message with newlines escaped, then the remaining fields as colored
`key=value` pairs sorted by key.  Result is the emitted line, or the panic
message when the level tag slicing panics. -/
def consoleWrite (r : Rec) : Except String String := do
  let tsPart :=
    match getK r KeyTime with
    | some (Value.vTime t) => consoleTimeString t
    | _ => ""
  let lvlPart ←
    match getK r KeyLevel with
    | some (Value.vStr lvl) =>
      let levelColor :=
        if lvl = "debug" then gray
        else if lvl = "warn" then yellow
        else if lvl = "error" then red
        else blue
      (do
        let tag ← levelTag lvl
        pure (colorPrint tag levelColor ++ " "))
    | _ => pure ""
  let msgPart :=
    match getK r KeyMessage with
    | some (Value.vStr msg) => escapeNewlines msg
    | _ => ""
  let fieldPart :=
    String.join ((gatherKeys r).map
      (fun k => " " ++ colorPrint k green ++ "=" ++ writeValue (getD r k)))
  pure (tsPart ++ lvlPart ++ msgPart ++ fieldPart ++ "\n")

/-- `NewConsoleOutputW(w, noTerm)`: the colorized console formatter when `w`
is a terminal, the `noTerm` fallback (for `NewConsoleOutput`: the logfmt
formatter) otherwise. -/
def NewConsoleOutputW (isTerminal : Bool) : Rec → Except String String :=
  if isTerminal then consoleWrite
  else fun r => Except.ok (logfmtWrite r)

/-! ### Logstash formatter (`logstashOutput.Write`) -/

/-- The value of a nonempty all-digit character list. -/
def digitsToNat? (cs : List Char) : Option Nat :=
  if cs ≠ [] && cs.all Char.isDigit then
    some (cs.foldl (fun n c => n * 10 + (c.toNat - 48)) 0)
  else none

/-- `strconv.ParseInt(s, 10, 32)`: optional sign, nonempty digits, result
within the 32-bit range; `none` models a parse error. -/
def goParseInt32 (s : String) : Option Int :=
  match s.data with
  | '+' :: rest =>
    match digitsToNat? rest with
    | some n => if n ≤ 2147483647 then some (n : Int) else none
    | none => none
  | '-' :: rest =>
    match digitsToNat? rest with
    | some n => if n ≤ 2147483648 then some (-(n : Int)) else none
    | none => none
  | cs =>
    match digitsToNat? cs with
    | some n => if n ≤ 2147483647 then some (n : Int) else none
    | none => none

/-- The `KeyFile` case of the logstash switch: split at the first `:`
(`strings.IndexByte`) and parse the suffix (`strconv.ParseInt(…, 10, 32)`);
`none` when there is no colon or the suffix does not parse. -/
def fileSplit (s : String) : Option (String × Int) :=
  match List.findIdx? (fun c => c = ':') s.data with
  | some i =>
    match goParseInt32 (String.mk (s.data.drop (i + 1))) with
    | some n => some (String.mk (s.data.take i), n)
    | none => none
  | none => none

/-- The trailing per-entry formatting of the logstash loop: a `time.Time`
value is rendered with RFC3339, anything else is passed through. -/
def lsFmt : Value → Value
  | Value.vTime t => Value.vStr (rfc3339 t)
  | v => v

/-- `strings.ToUpper` on a string value (ASCII model), anything else passed
through — the `KeyLevel` case of the logstash switch. -/
def upperIfStr : Value → Value
  | Value.vStr s => Value.vStr (String.mk (s.data.map Char.toUpper))
  | v => v

/-- The map assignments one entry of the record causes in the logstash loop
body, in order: the `switch k` renaming/transformation, then the `time.Time`
formatting, then `lsf[k] = v` (preceded by `lsf["line_number"] = n` in the
successful file-split case). -/
def logstashWrites (kv : String × Value) : List (String × Value) :=
  if kv.1 = KeyTime then [("@timestamp", lsFmt kv.2)]
  else if kv.1 = KeyLevel then [(KeyLevel, lsFmt (upperIfStr kv.2))]
  else if kv.1 = KeyFile then
    match kv.2 with
    | Value.vStr s =>
      match fileSplit s with
      | some nl => [("line_number", Value.vInt nl.2), (KeyFile, Value.vStr nl.1)]
      | none => [(kv.1, lsFmt kv.2)]
    | _ => [(kv.1, lsFmt kv.2)]
  else [(kv.1, lsFmt kv.2)]

/-- One iteration of the logstash loop over the record. -/
def logstashStep (lsf : Rec) (kv : String × Value) : Rec :=
  mergeInto lsf (logstashWrites kv)

/-- `logstashOutput.Write` up to `json.Marshal`: the JSON object built from a
record — `@version` fixed, `time` renamed `@timestamp`, `level` uppercased,
`file` of the form `name:line` split into `file` and `line_number`, and any
`time.Time` value rendered with RFC3339.  The resulting map is then marshaled
as one JSON object. -/
def logstashLsf (r : Rec) : Rec :=
  List.foldl logstashStep (setK [] "@version" (Value.vInt 1)) r

/-! ### Logger core (`xlog.go`) -/

/-- `path.Base`. -/
def pathBase (p : String) : String :=
  if p = "" then "."
  else
    let cs := (p.data.reverse.dropWhile (fun c => c = '/'))
    if cs = [] then "/"
    else String.mk ((cs.takeWhile (fun c => c ≠ '/')).reverse)

/-- One variadic argument of a per-level call: a string, a non-nil error
(carrying its message), a field mapping (`map[string]interface{}` or `F` —
both are extracted the same way), or any other value (carrying its
`fmt.Sprint` rendering). -/
inductive Arg where
  | str (s : String)
  | errArg (e : String)
  | fmap (f : Rec)
  | other (r : String)
  deriving DecidableEq, Repr

def argIsString : Arg → Bool
  | Arg.str _ => true
  | _ => false

/-- `fmt.Sprint` of one argument. -/
def argSprint : Arg → String
  | Arg.str s => s
  | Arg.errArg e => e
  | Arg.fmap f =>
    "map[" ++ String.intercalate (" ")
      ((sortStrings (f.map Prod.fst)).map (fun k => k ++ ":" ++ valueSprint (getD f k))) ++ "]"
  | Arg.other r => r

/-- `fmt.Sprint(v...)`: concatenate the operands, inserting a space between
two adjacent operands only when neither is a string. -/
def goSprint : List Arg → String
  | [] => ""
  | [a] => argSprint a
  | a :: b :: t =>
    argSprint a ++ (if argIsString a || argIsString b then "" else " ") ++ goSprint (b :: t)

/-- `extractFields`: from the tail of the variadic arguments, pop a trailing
error (only if it is not the sole argument), then a trailing field mapping,
then — when no error was found yet — again a trailing error.  Returns the
remaining message arguments, the extracted mapping and the extracted error. -/
def extractFields (v0 : List Arg) : List Arg × Option Rec × Option String :=
  let s1 : List Arg × Option String :=
    match v0.getLast? with
    | some (Arg.errArg e) => if v0.length > 1 then (v0.dropLast, some e) else (v0, none)
    | _ => (v0, none)
  let s2 : List Arg × Option Rec :=
    match s1.1.getLast? with
    | some (Arg.fmap m) => (s1.1.dropLast, some m)
    | _ => (s1.1, none)
  let s3 : List Arg × Option String :=
    match s1.2, s2.1.getLast? with
    | none, some (Arg.errArg e) => if s2.1.length > 1 then (s2.1.dropLast, some e) else (s2.1, none)
    | _, _ => (s2.1, s1.2)
  (s3.1, s2.2, s3.2)

/-- `OutputChannel`: the bounded queue in front of the wrapped output.  The
buffer holds the pending records; the dedicated consumer goroutine is stalled
in the scenarios the properties quantify over, so delivery to the wrapped
output happens only through `ocFlush`. -/
structure OutputChannel where
  buffer : List Rec
  cap : Nat
  deriving DecidableEq, Repr

/-- `ErrBufferFull`. -/
def ErrBufferFull : String := "buffer full"

/-- `OutputChannel.Write`: a non-blocking send — enqueue when the buffer has
room, otherwise return `ErrBufferFull` with the record dropped.  Total, hence
never blocking. -/
def ocWrite (oc : OutputChannel) (r : Rec) : OutputChannel × Option String :=
  if oc.buffer.length < oc.cap then ({ oc with buffer := oc.buffer ++ [r] }, none)
  else (oc, some ErrBufferFull)

/-- Iterated `Write`, collecting each call's error result. -/
def ocWriteAll (oc : OutputChannel) (rs : List Rec) : OutputChannel × List (Option String) :=
  match rs with
  | [] => (oc, [])
  | r :: t =>
    ((ocWriteAll (ocWrite oc r).1 t).1, (ocWrite oc r).2 :: (ocWriteAll (ocWrite oc r).1 t).2)

/-- `OutputChannel.Flush`: drain every buffered record, in FIFO order, to the
wrapped output.  Returns the delivered records and the emptied channel. -/
def ocFlush (oc : OutputChannel) : List Rec × OutputChannel :=
  (oc.buffer, { oc with buffer := [] })

/-- The logger instance: minimum level, default fields (`none` is a Go nil
map), and the output (`none` is a nil output; the properties about the
asynchronous pipeline take a channel-backed output). -/
structure Logger where
  level : Level
  fields : Option Rec
  output : Option OutputChannel
  deriving DecidableEq, Repr

/-- The reserved-key part of the record assembly of `send`, in source order:
`time`, `level`, `message`, the optional `error`, the optional caller `file`
(as `basename:line`). -/
def baseRecord (tm : GoTime) (level : Level) (msg : String)
    (caller : Option (String × Nat)) (e : Option String) : Rec :=
  let d := setK [] KeyTime (Value.vTime tm)
  let d := setK d KeyLevel (Value.vStr (levelString level))
  let d := setK d KeyMessage (Value.vStr msg)
  let d :=
    match e with
    | some err => setK d KeyError (Value.vErr err)
    | none => d
  match caller with
  | some fl => setK d KeyFile (Value.vStr (pathBase fl.1 ++ ":" ++ toString fl.2))
  | none => d

/-- The record assembly of `send`: the reserved keys, then the per-call
fields merged in, then the logger's default fields merged in (the source
merges `fields` before `l.fields`, so on a key collision a logger default
overwrites a per-call field, which overwrites a reserved key).  Merging a nil
(`none`) map is a no-op, as ranging over a nil Go map is. -/
def buildRecord (tm : GoTime) (level : Level) (msg : String)
    (caller : Option (String × Nat)) (e : Option String)
    (fields : Option Rec) (defaults : Option Rec) : Rec :=
  mergeInto (mergeInto (baseRecord tm level msg caller e) (fields.getD [])) (defaults.getD [])

/-- The observable effect of one `send`: the record handed to
`l.output.Write` (if any), the channel state afterwards, and the lines
printed to the side critical logger. -/
structure SendEffect where
  handed : Option Rec
  output : Option OutputChannel
  diagnostics : List String
  deriving DecidableEq, Repr

/-- `logger.send`: gate on `level < l.level || l.output == nil`, assemble the
record, hand it to the output's non-blocking `Write`, and report a `Write`
error to the critical side logger (never to the output itself).  `tm` is the
`now()` result, `caller` the `runtime.Caller` result (an external input of
the model). -/
def send (l : Logger) (tm : GoTime) (caller : Option (String × Nat))
    (level : Level) (msg : String) (fields : Option Rec) (e : Option String) : SendEffect :=
  match l.output with
  | none => { handed := none, output := none, diagnostics := [] }
  | some oc =>
    if level < l.level then { handed := none, output := some oc, diagnostics := [] }
    else
      let data := buildRecord tm level msg caller e fields l.fields
      let wr := ocWrite oc data
      { handed := some data
        output := some wr.1
        diagnostics :=
          match wr.2 with
          | some err => ["send error: " ++ err]
          | none => [] }

/-- The shared body of the per-level convenience methods: extract a trailing
field mapping and error, compose the message from the remaining arguments,
and `send`. -/
def levelCall (l : Logger) (level : Level) (tm : GoTime)
    (caller : Option (String × Nat)) (args : List Arg) : SendEffect :=
  let ex := extractFields args
  send l tm caller level (goSprint ex.1) ex.2.1 ex.2.2

def Logger.Debug (l : Logger) (tm : GoTime) (caller : Option (String × Nat))
    (args : List Arg) : SendEffect :=
  levelCall l LevelDebug tm caller args

def Logger.Info (l : Logger) (tm : GoTime) (caller : Option (String × Nat))
    (args : List Arg) : SendEffect :=
  levelCall l LevelInfo tm caller args

def Logger.Warn (l : Logger) (tm : GoTime) (caller : Option (String × Nat))
    (args : List Arg) : SendEffect :=
  levelCall l LevelWarn tm caller args

def Logger.Error (l : Logger) (tm : GoTime) (caller : Option (String × Nat))
    (args : List Arg) : SendEffect :=
  levelCall l LevelError tm caller args

/-- One observable event of the fatal path: a record delivered to the wrapped
output, or the invocation of the `exit1` hook. -/
inductive FatalEvent where
  | delivered (r : Rec)
  | exited
  deriving DecidableEq, Repr

/-- `logger.Fatal`: send the record at `LevelFatal`; when the output is an
`OutputChannel`, `Close` it — which stops the consumer and synchronously
flushes every buffered record to the wrapped output — and only then invoke
the `exit1` hook.  The result is the ordered trace of deliveries and the
exit. -/
def Logger.Fatal (l : Logger) (tm : GoTime) (caller : Option (String × Nat))
    (args : List Arg) : List FatalEvent :=
  let eff := levelCall l LevelFatal tm caller args
  match eff.output with
  | some oc => ((ocFlush oc).1.map FatalEvent.delivered) ++ [FatalEvent.exited]
  | none => [FatalEvent.exited]

/-- `logger.SetField`: initializes the nil map before assigning. -/
def Logger.SetField (l : Logger) (name : String) (value : Value) : Logger :=
  match l.fields with
  | none => { l with fields := some (setK [] name value) }
  | some m => { l with fields := some (setK m name value) }

/-- `logger.SetFields`: ranges over the argument assigning into `l.fields`
without the nil check `SetField` performs; assigning into a nil Go map
panics, which the `Except.error` result models.  (An empty argument never
executes the loop body and therefore cannot panic.) -/
def Logger.SetFields (l : Logger) (fields : Rec) : Except String Logger :=
  match fields with
  | [] => Except.ok l
  | _ =>
    match l.fields with
    | none => Except.error "assignment to entry in nil map"
    | some m => Except.ok { l with fields := some (mergeInto m fields) }

/-- `New(c)`: a fresh (or pool-recycled, hence zeroed) instance configured
with the level and output, the configured default fields applied through
`SetField`.  With no configured fields the field map stays nil. -/
def New (level : Level) (cfgFields : Rec) (output : Option OutputChannel) : Logger :=
  List.foldl (fun l kv => Logger.SetField l kv.1 kv.2)
    { level := level, fields := none, output := output } cfgFields

/-- Equality of formatter results (needed to evaluate concrete formatter runs
in closed statements). -/
instance {α β : Type} [DecidableEq α] [DecidableEq β] : DecidableEq (Except α β) :=
  fun x y =>
    match x, y with
    | Except.ok a, Except.ok b =>
      if h : a = b then Decidable.isTrue (by rw [h])
      else Decidable.isFalse (fun hc => h (by cases hc; rfl))
    | Except.error a, Except.error b =>
      if h : a = b then Decidable.isTrue (by rw [h])
      else Decidable.isFalse (fun hc => h (by cases hc; rfl))
    | Except.ok _, Except.error _ => Decidable.isFalse (fun hc => by cases hc)
    | Except.error _, Except.ok _ => Decidable.isFalse (fun hc => by cases hc)

/-! ### Lookup and merge lemmas -/

lemma getK_append (xs ys : Rec) (q : String) :
    getK (xs ++ ys) q =
      match getK xs q with
      | some v => some v
      | none => getK ys q := by
  induction xs with
  | nil => simp [getK]
  | cons p t ih =>
    obtain ⟨a, b⟩ := p
    by_cases h : a = q <;> simp [getK, h, ih]

lemma getK_eraseKey_self (r : Rec) (k : String) :
    getK (eraseKey r k) k = none := by
  induction r with
  | nil => simp [eraseKey, getK]
  | cons p t ih =>
    obtain ⟨a, b⟩ := p
    by_cases h : a = k
    · simp [eraseKey, List.filter, h] at ih ⊢
      exact ih
    · simp [eraseKey, List.filter, h, getK] at ih ⊢
      exact ih

lemma getK_eraseKey_ne (r : Rec) (k q : String) (h : q ≠ k) :
    getK (eraseKey r k) q = getK r q := by
  induction r with
  | nil => rfl
  | cons p t ih =>
    obtain ⟨a, b⟩ := p
    by_cases hak : a = k
    · have haq : ¬a = q := by
        intro hc
        exact h (by rw [← hc, hak])
      rw [show eraseKey ((a, b) :: t) k = eraseKey t k from by
        simp [eraseKey, List.filter_cons, hak]]
      rw [show getK ((a, b) :: t) q = getK t q from by simp [getK, haq]]
      exact ih
    · rw [show eraseKey ((a, b) :: t) k = (a, b) :: eraseKey t k from by
        simp [eraseKey, List.filter_cons, hak]]
      by_cases haq : a = q
      · simp [getK, haq]
      · simp [getK, haq, ih]

lemma getK_setK (r : Rec) (k : String) (v : Value) (q : String) :
    getK (setK r k v) q = if q = k then some v else getK r q := by
  unfold setK
  rw [getK_append]
  by_cases h : q = k
  · subst h
    rw [getK_eraseKey_self]
    simp [getK]
  · have h' : ¬k = q := fun hc => h hc.symm
    rw [getK_eraseKey_ne r k q h]
    cases hg : getK r q with
    | some w => simp [h, hg]
    | none => simp [h, h', hg, getK]

lemma getK_mergeInto (m f : Rec) (q : String) :
    getK (mergeInto m f) q =
      match lookupLast f q with
      | some v => some v
      | none => getK m q := by
  induction f generalizing m with
  | nil => simp [mergeInto, lookupLast]
  | cons p t ih =>
    obtain ⟨a, b⟩ := p
    rw [show mergeInto m ((a, b) :: t) = mergeInto (setK m a b) t from rfl, ih]
    cases hlt : lookupLast t q with
    | some v => simp [lookupLast, hlt]
    | none =>
      rw [getK_setK]
      rw [show lookupLast ((a, b) :: t) q =
          (match lookupLast t q with
           | some v => some v
           | none => if a = q then some b else none) from rfl]
      rw [hlt]
      by_cases h : a = q
      · subst h
        simp
      · have h' : ¬q = a := fun hc => h hc.symm
        simp [h, h']

lemma lookupLast_append (xs ys : Rec) (q : String) :
    lookupLast (xs ++ ys) q =
      match lookupLast ys q with
      | some v => some v
      | none => lookupLast xs q := by
  induction xs with
  | nil =>
    cases h : lookupLast ys q <;> simp [lookupLast, h]
  | cons p t ih =>
    obtain ⟨a, b⟩ := p
    rw [List.cons_append]
    rw [show lookupLast ((a, b) :: (t ++ ys)) q =
        (match lookupLast (t ++ ys) q with
         | some v => some v
         | none => if a = q then some b else none) from rfl]
    rw [ih]
    cases h : lookupLast ys q with
    | some v => simp [lookupLast, h]
    | none =>
      cases ht : lookupLast t q <;> simp [lookupLast, h, ht]

lemma lookupLast_eq_none (f : Rec) (q : String) (h : ∀ p ∈ f, p.1 ≠ q) :
    lookupLast f q = none := by
  induction f with
  | nil => rfl
  | cons p t ih =>
    have h1 : p.1 ≠ q := h p (List.mem_cons_self p t)
    have h2 : lookupLast t q = none := ih (fun x hx => h x (List.mem_cons_of_mem p hx))
    obtain ⟨a, b⟩ := p
    simp [lookupLast, h2, h1]

lemma lookupLast_eq_getK (r : Rec) (q : String) (h : (r.map Prod.fst).Nodup) :
    lookupLast r q = getK r q := by
  induction r with
  | nil => rfl
  | cons p t ih =>
    obtain ⟨a, b⟩ := p
    simp only [List.map_cons, List.nodup_cons] at h
    by_cases haq : a = q
    · subst haq
      have hnone : lookupLast t a = none :=
        lookupLast_eq_none t a (by
          intro x hx hc
          exact h.1 (hc ▸ List.mem_map_of_mem Prod.fst hx))
      simp [lookupLast, getK, hnone]
    · rw [show lookupLast ((a, b) :: t) q =
          (match lookupLast t q with
           | some v => some v
           | none => if a = q then some b else none) from rfl]
      rw [ih h.2]
      cases hg : getK t q <;> simp [getK, haq, hg]

lemma getK_eq_none_iff (r : Rec) (q : String) :
    getK r q = none ↔ ∀ p ∈ r, p.1 ≠ q := by
  induction r with
  | nil => simp [getK]
  | cons p t ih =>
    obtain ⟨a, b⟩ := p
    by_cases h : a = q <;> simp [getK, h, ih]

lemma mergeInto_append (m : Rec) (xs ys : Rec) :
    mergeInto m (xs ++ ys) = mergeInto (mergeInto m xs) ys := by
  simp [mergeInto, List.foldl_append]

/-! ### Logstash fold lemmas -/

lemma foldl_logstashStep (lsf : Rec) (r : Rec) :
    List.foldl logstashStep lsf r = mergeInto lsf (r.flatMap logstashWrites) := by
  induction r generalizing lsf with
  | nil => simp [mergeInto]
  | cons kv t ih =>
    rw [List.foldl_cons, ih, List.flatMap_cons, mergeInto_append]
    rfl

lemma lookupLast_flatMap_none (r : Rec) (q : String)
    (h : ∀ kv ∈ r, ∀ p ∈ logstashWrites kv, p.1 ≠ q) :
    lookupLast (r.flatMap logstashWrites) q = none := by
  induction r with
  | nil => rfl
  | cons kv t ih =>
    rw [List.flatMap_cons, lookupLast_append]
    rw [ih (fun x hx => h x (List.mem_cons_of_mem kv hx))]
    exact lookupLast_eq_none _ q (h kv (List.mem_cons_self kv t))

lemma lookupLast_none_key (f : Rec) (q : String) (h : lookupLast f q = none) :
    ∀ p ∈ f, p.1 ≠ q := by
  induction f with
  | nil => intro p hp; cases hp
  | cons a t ih =>
    intro p hp
    rw [show lookupLast (a :: t) q =
        (match lookupLast t q with
         | some v => some v
         | none => if a.1 = q then some a.2 else none) from rfl] at h
    cases ht : lookupLast t q with
    | some v => rw [ht] at h; cases h
    | none =>
      rw [ht] at h
      cases hp with
      | head =>
        intro hc
        rw [if_pos hc] at h
        cases h
      | tail _ hmem => exact ih ht p hmem

lemma lookupLast_flatMap_src (r : Rec) (src q : String) (g : Value → Option Value)
    (hnodup : (r.map Prod.fst).Nodup)
    (h1 : ∀ kv ∈ r, kv.1 = src → lookupLast (logstashWrites kv) q = g kv.2)
    (h2 : ∀ kv ∈ r, kv.1 ≠ src → lookupLast (logstashWrites kv) q = none) :
    lookupLast (r.flatMap logstashWrites) q =
      match lookupLast r src with
      | some v => g v
      | none => none := by
  induction r with
  | nil => rfl
  | cons kv t ih =>
    simp only [List.map_cons, List.nodup_cons] at hnodup
    rw [List.flatMap_cons, lookupLast_append]
    rw [show lookupLast (kv :: t) src =
        (match lookupLast t src with
         | some v => some v
         | none => if kv.1 = src then some kv.2 else none) from rfl]
    by_cases hsrc : kv.1 = src
    · have htnone : lookupLast t src = none :=
        lookupLast_eq_none t src (by
          intro x hx hc
          exact hnodup.1 (by rw [hsrc, ← hc]; exact List.mem_map_of_mem Prod.fst hx))
      have hflat : lookupLast (t.flatMap logstashWrites) q = none := by
        apply lookupLast_flatMap_none
        intro x hx
        have hxsrc : x.1 ≠ src := by
          intro hx2
          exact hnodup.1 (by rw [hsrc, ← hx2]; exact List.mem_map_of_mem Prod.fst hx)
        exact lookupLast_none_key _ q (h2 x (List.mem_cons_of_mem kv hx) hxsrc)
      rw [hflat, htnone, if_pos hsrc]
      exact h1 kv (List.mem_cons_self kv t) hsrc
    · have ht := ih hnodup.2
        (fun x hx => h1 x (List.mem_cons_of_mem kv hx))
        (fun x hx => h2 x (List.mem_cons_of_mem kv hx))
      rw [ht]
      have hkv : lookupLast (logstashWrites kv) q = none :=
        h2 kv (List.mem_cons_self kv t) hsrc
      cases hls : lookupLast t src with
      | none => simp [hkv, hsrc]
      | some v =>
        cases hgv : g v with
        | some w => simp [hgv]
        | none => simp [hgv, hkv]

/-! ### Record assembly lemmas -/

lemma getK_baseRecord_other (tm : GoTime) (lv : Level) (msg : String)
    (caller : Option (String × Nat)) (e : Option String) (q : String)
    (h1 : q ≠ KeyTime) (h2 : q ≠ KeyLevel) (h3 : q ≠ KeyMessage)
    (h4 : q ≠ KeyError) (h5 : q ≠ KeyFile) :
    getK (baseRecord tm lv msg caller e) q = none := by
  cases e <;> cases caller <;>
    simp [baseRecord, getK_setK, h1, h2, h3, h4, h5, getK,
      Ne.symm h1, Ne.symm h2, Ne.symm h3, Ne.symm h4, Ne.symm h5]

lemma getK_buildRecord (tm : GoTime) (lv : Level) (msg : String)
    (caller : Option (String × Nat)) (e : Option String)
    (fields defaults : Option Rec) (q : String) :
    getK (buildRecord tm lv msg caller e fields defaults) q =
      match lookupLast (defaults.getD []) q with
      | some v => some v
      | none =>
        match lookupLast (fields.getD []) q with
        | some v => some v
        | none => getK (baseRecord tm lv msg caller e) q := by
  unfold buildRecord
  rw [getK_mergeInto, getK_mergeInto]

/-! ### Claim C1 — field precedence on key collision -/

/-- Claim C1, as stated, is false: in `send` the per-call (message) fields are
merged into the record first and the logger's default fields are merged
afterwards, so on a key collision the logger default wins.  A logger with
default field `a = 1` receiving the call-site field `a = 2` produces a record
with `a = 1`, not `a = 2`. -/
theorem c1_counterexample :
    ¬ getK (buildRecord ⟨2020, 1, 2, 3, 4, 5⟩ LevelInfo "hello" none none
        (some [("a", Value.vInt 2)]) (some [("a", Value.vInt 1)])) "a"
      = some (Value.vInt 2)
    ∧ getK (buildRecord ⟨2020, 1, 2, 3, 4, 5⟩ LevelInfo "hello" none none
        (some [("a", Value.vInt 2)]) (some [("a", Value.vInt 1)])) "a"
      = some (Value.vInt 1) := by
  constructor
  · decide
  · decide

/-- Claim C1 (amended): when a call-site (message) field and a logger default
field share the same key, the record handed to the output contains the logger
default field's value — message fields are merged into the record first and
instance defaults override them; on a key held only by the call-site fields
the call-site value stands.  A logger with default field `a = 1` receiving a
call-site field `a = 2` produces a record with `a = 1`. -/
theorem c1_field_precedence :
    (∀ (tm : GoTime) (lv : Level) (msg : String) (caller : Option (String × Nat))
       (e : Option String) (fields defaults : Rec) (k : String) (v : Value),
       lookupLast defaults k = some v →
       getK (buildRecord tm lv msg caller e (some fields) (some defaults)) k = some v)
    ∧ (∀ (tm : GoTime) (lv : Level) (msg : String) (caller : Option (String × Nat))
       (e : Option String) (fields defaults : Rec) (k : String) (v : Value),
       lookupLast defaults k = none → lookupLast fields k = some v →
       getK (buildRecord tm lv msg caller e (some fields) (some defaults)) k = some v) := by
  constructor
  · intro tm lv msg caller e fields defaults k v hdef
    rw [getK_buildRecord]
    simp [hdef]
  · intro tm lv msg caller e fields defaults k v hdef hcall
    rw [getK_buildRecord]
    simp [hdef, hcall]

theorem c1_field_precedence_witness :
    lookupLast [("a", Value.vInt 1)] "a" = some (Value.vInt 1)
    ∧ getK (buildRecord ⟨2020, 1, 2, 3, 4, 5⟩ LevelInfo "hello" none none
        (some [("a", Value.vInt 2)]) (some [("a", Value.vInt 1)])) "a"
      = some (Value.vInt 1)
    ∧ lookupLast [("b", Value.vInt 7)] "a" = none
    ∧ getK (buildRecord ⟨2020, 1, 2, 3, 4, 5⟩ LevelInfo "hello" none none
        (some [("a", Value.vInt 2)]) (some [("b", Value.vInt 7)])) "a"
      = some (Value.vInt 2) :=
  ⟨by decide,
   c1_field_precedence.1 ⟨2020, 1, 2, 3, 4, 5⟩ LevelInfo "hello" none none
     [("a", Value.vInt 2)] [("a", Value.vInt 1)] "a" (Value.vInt 1) (by decide),
   by decide,
   c1_field_precedence.2 ⟨2020, 1, 2, 3, 4, 5⟩ LevelInfo "hello" none none
     [("a", Value.vInt 2)] [("b", Value.vInt 7)] "a" (Value.vInt 2) (by decide) (by decide)⟩

/-! ### Claim C10 — reserved keys are not protected from user collision -/

/-- Claim C10: a logger default field or a call-site field whose key equals a
reserved key (`time`, `level`, `message`, `file`, `error`) overwrites the
automatically generated reserved value in the final record, because user
fields are merged into the record after the reserved keys are set. -/
theorem c10_reserved_overwritten :
    (∀ (tm : GoTime) (lv : Level) (msg : String) (caller : Option (String × Nat))
       (e : Option String) (fields : Option Rec) (defaults : Rec) (k : String) (v : Value),
       k ∈ [KeyTime, KeyLevel, KeyMessage, KeyFile, KeyError] →
       lookupLast defaults k = some v →
       getK (buildRecord tm lv msg caller e fields (some defaults)) k = some v)
    ∧ (∀ (tm : GoTime) (lv : Level) (msg : String) (caller : Option (String × Nat))
       (e : Option String) (fields : Rec) (defaults : Option Rec) (k : String) (v : Value),
       k ∈ [KeyTime, KeyLevel, KeyMessage, KeyFile, KeyError] →
       lookupLast (defaults.getD []) k = none → lookupLast fields k = some v →
       getK (buildRecord tm lv msg caller e (some fields) defaults) k = some v) := by
  constructor
  · intro tm lv msg caller e fields defaults k v _ hdef
    rw [getK_buildRecord]
    simp [hdef]
  · intro tm lv msg caller e fields defaults k v _ hdef hcall
    rw [getK_buildRecord]
    simp [hdef, hcall]

theorem c10_reserved_overwritten_witness :
    KeyTime ∈ [KeyTime, KeyLevel, KeyMessage, KeyFile, KeyError]
    ∧ lookupLast [(KeyTime, Value.vStr "fake")] KeyTime = some (Value.vStr "fake")
    ∧ getK (buildRecord ⟨2020, 1, 2, 3, 4, 5⟩ LevelInfo "hello" none none none
        (some [(KeyTime, Value.vStr "fake")])) KeyTime = some (Value.vStr "fake")
    ∧ lookupLast [] KeyLevel = none
    ∧ lookupLast [(KeyLevel, Value.vStr "shout")] KeyLevel = some (Value.vStr "shout")
    ∧ getK (buildRecord ⟨2020, 1, 2, 3, 4, 5⟩ LevelInfo "hello" none none
        (some [(KeyLevel, Value.vStr "shout")]) none) KeyLevel = some (Value.vStr "shout") :=
  ⟨by decide, by decide,
   c10_reserved_overwritten.1 ⟨2020, 1, 2, 3, 4, 5⟩ LevelInfo "hello" none none none
     [(KeyTime, Value.vStr "fake")] KeyTime (Value.vStr "fake") (by decide) (by decide),
   by decide, by decide,
   c10_reserved_overwritten.2 ⟨2020, 1, 2, 3, 4, 5⟩ LevelInfo "hello" none none
     [(KeyLevel, Value.vStr "shout")] none KeyLevel (Value.vStr "shout")
     (by decide) (by decide) (by decide)⟩

/-! ### Claim C3 — level gating -/

/-- Claim C3: a call below the logger's minimum level constructs no record and
has no side effect — the send returns with the output state untouched and no
diagnostics; a call at or above the minimum level with a non-nil output
constructs the record and hands it to the sink. -/
theorem c3_level_gate :
    (∀ (l : Logger) (tm : GoTime) (caller : Option (String × Nat)) (lv : Level)
       (msg : String) (f : Option Rec) (e : Option String),
       lv < l.level →
       send l tm caller lv msg f e
         = { handed := none, output := l.output, diagnostics := [] })
    ∧ (∀ (l : Logger) (oc : OutputChannel) (tm : GoTime) (caller : Option (String × Nat))
       (lv : Level) (msg : String) (f : Option Rec) (e : Option String),
       l.output = some oc → l.level ≤ lv →
       (send l tm caller lv msg f e).handed
         = some (buildRecord tm lv msg caller e f l.fields)) := by
  constructor
  · intro l tm caller lv msg f e hlt
    unfold send
    cases hout : l.output with
    | none => simp
    | some oc => simp [hlt]
  · intro l oc tm caller lv msg f e hout hle
    unfold send
    rw [hout]
    simp [not_lt.mpr hle]

theorem c3_level_gate_witness :
    ((LevelDebug : Level) < (LevelError : Level)
      ∧ send { level := LevelError, fields := none, output := some { buffer := [], cap := 4 } }
          ⟨2020, 1, 2, 3, 4, 5⟩ none LevelDebug "quiet" none none
        = { handed := none,
            output := some { buffer := [], cap := 4 },
            diagnostics := [] })
    ∧ ((LevelError : Level) ≤ (LevelError : Level)
      ∧ (send { level := LevelError, fields := none, output := some { buffer := [], cap := 4 } }
          ⟨2020, 1, 2, 3, 4, 5⟩ none LevelError "loud" none none).handed
        = some (buildRecord ⟨2020, 1, 2, 3, 4, 5⟩ LevelError "loud" none none none none)) :=
  ⟨⟨by decide,
    c3_level_gate.1 { level := LevelError, fields := none, output := some { buffer := [], cap := 4 } }
      ⟨2020, 1, 2, 3, 4, 5⟩ none LevelDebug "quiet" none none (by decide)⟩,
   ⟨by decide,
    c3_level_gate.2 { level := LevelError, fields := none, output := some { buffer := [], cap := 4 } }
      { buffer := [], cap := 4 } ⟨2020, 1, 2, 3, 4, 5⟩ none LevelError "loud" none none
      rfl (by decide)⟩⟩

/-! ### Claim C9 — no extra fields without a trailing field mapping -/

/-- Claim C9, as stated, is false: a per-level call whose final variadic
argument is a (non-sole) error — not a field mapping — attaches that error
under the reserved `error` key, a key outside the claim's list
`{time, level, message, file}` and outside the logger's defaults. -/
theorem c9_counterexample :
    (extractFields [Arg.str "hi", Arg.errArg "boom"]).2.1 = none
    ∧ getK (((Logger.Info
          { level := LevelDebug, fields := none, output := some { buffer := [], cap := 4 } }
          ⟨2020, 1, 2, 3, 4, 5⟩ none [Arg.str "hi", Arg.errArg "boom"]).handed).getD [])
        "error" = some (Value.vErr "boom")
    ∧ ¬("error" = KeyTime ∨ "error" = KeyLevel ∨ "error" = KeyMessage ∨ "error" = KeyFile) := by
  refine ⟨by decide, ?_, by decide⟩
  decide

/-- Claim C9 (amended): for every per-level log call whose final variadic
argument is not a field mapping, the record handed to the sink contains no
keys beyond the logger's own default fields and the reserved keys
`time`, `level`, `message`, `file` and `error` — the `error` key carrying a
trailing error argument when one is present; no other field is attached from
the variadic arguments. -/
theorem c9_no_extra_fields (l : Logger) (lv : Level) (tm : GoTime)
    (caller : Option (String × Nat)) (args : List Arg) (q : String) (r : Rec)
    (hnomap : (extractFields args).2.1 = none)
    (hdef : ∀ p ∈ l.fields.getD [], p.1 ≠ q)
    (h1 : q ≠ KeyTime) (h2 : q ≠ KeyLevel) (h3 : q ≠ KeyMessage)
    (h4 : q ≠ KeyFile) (h5 : q ≠ KeyError)
    (hr : (levelCall l lv tm caller args).handed = some r) :
    getK r q = none := by
  unfold levelCall send at hr
  cases hout : l.output with
  | none => rw [hout] at hr; cases hr
  | some oc =>
    rw [hout] at hr
    by_cases hlt : lv < l.level
    · simp [hlt] at hr
    · simp [hlt] at hr
      have hrec : r = buildRecord tm lv (goSprint (extractFields args).1) caller
          (extractFields args).2.2 (extractFields args).2.1 l.fields := hr.symm
      rw [hrec, hnomap, getK_buildRecord]
      rw [lookupLast_eq_none _ q hdef]
      rw [show lookupLast ((none : Option Rec).getD []) q = none from rfl]
      exact getK_baseRecord_other tm lv _ caller _ q h1 h2 h3 h5 h4

theorem c9_no_extra_fields_witness :
    (extractFields [Arg.str "hi"]).2.1 = none
    ∧ getK (((Logger.Info
          { level := LevelDebug, fields := some [("host", Value.vStr "a")],
            output := some { buffer := [], cap := 4 } }
          ⟨2020, 1, 2, 3, 4, 5⟩ none [Arg.str "hi"]).handed).getD [("x", Value.vNull)])
        "user" = none :=
  ⟨by decide, by
    have h := c9_no_extra_fields
      { level := LevelDebug, fields := some [("host", Value.vStr "a")],
        output := some { buffer := [], cap := 4 } }
      LevelInfo ⟨2020, 1, 2, 3, 4, 5⟩ none [Arg.str "hi"] "user"
      (buildRecord ⟨2020, 1, 2, 3, 4, 5⟩ LevelInfo "hi" none none none
        (some [("host", Value.vStr "a")]))
      (by decide) (by decide) (by decide) (by decide) (by decide) (by decide) (by decide)
      (by decide)
    rw [show ((Logger.Info
          { level := LevelDebug, fields := some [("host", Value.vStr "a")],
            output := some { buffer := [], cap := 4 } }
          ⟨2020, 1, 2, 3, 4, 5⟩ none [Arg.str "hi"]).handed).getD [("x", Value.vNull)]
        = buildRecord ⟨2020, 1, 2, 3, 4, 5⟩ LevelInfo "hi" none none none
            (some [("host", Value.vStr "a")]) from by decide]
    exact h⟩

/-! ### Claim C5 — the shared value serializer -/

/-- Claim C5: a string containing none of space, `=`, `"`, or control
characters ≤ 0x20 is emitted bare; any other string is emitted JSON-quoted;
`nil` is emitted as the bare token `null`; an error value is serialized as its
message string through the same rule; any other value through its default
textual representation and the same rule.  Concretely, `foo=bar` is quoted
and `foobar` is bare. -/
theorem c5_write_value :
    (∀ s : String,
       (∀ c ∈ s.data, ¬(c = ' ' ∨ c = '=' ∨ c = '"' ∨ c.val ≤ 32)) →
       writeValue (Value.vStr s) = s)
    ∧ (∀ s : String,
       (∃ c ∈ s.data, (c = ' ' ∨ c = '=' ∨ c = '"' ∨ c.val ≤ 32)) →
       writeValue (Value.vStr s) = goJSONQuote s)
    ∧ writeValue Value.vNull = "null"
    ∧ (∀ e : String, writeValue (Value.vErr e) = writeValue (Value.vStr e))
    ∧ (∀ v : Value,
       v ≠ Value.vNull → (∀ s, v ≠ Value.vStr s) → (∀ e, v ≠ Value.vErr e) →
       writeValue v = writeValue (Value.vStr (valueSprint v)))
    ∧ writeValue (Value.vStr "foo=bar") = "\"foo=bar\""
    ∧ writeValue (Value.vStr "foobar") = "foobar" := by
  refine ⟨?_, ?_, rfl, fun e => rfl, ?_, by decide, by decide⟩
  · intro s h
    have hany : s.data.any needsQuotedValueRune = false := by
      rw [List.any_eq_false]
      intro c hc
      have hnc := h c hc
      push_neg at hnc
      simp [needsQuotedValueRune, hnc.2.1, hnc.2.2.1, hnc.2.2.2]
    simp [writeValue, writeString, hany]
  · intro s h
    obtain ⟨c, hc, hneed⟩ := h
    have hany : s.data.any needsQuotedValueRune = true := by
      rw [List.any_eq_true]
      refine ⟨c, hc, ?_⟩
      rcases hneed with h | h | h | h
      · simp [needsQuotedValueRune, h]
      · simp [needsQuotedValueRune, h]
      · simp [needsQuotedValueRune, h]
      · simp [needsQuotedValueRune, h]
    simp [writeValue, writeString, hany]
  · intro v hn hs he
    cases v with
    | vNull => exact absurd rfl hn
    | vStr s => exact absurd rfl (hs s)
    | vErr e => exact absurd rfl (he e)
    | vInt n => rfl
    | vBool b => rfl
    | vTime t => rfl
    | vOther r => rfl

theorem c5_write_value_witness :
    (∀ c ∈ ("foobar" : String).data, ¬(c = ' ' ∨ c = '=' ∨ c = '"' ∨ c.val ≤ 32))
    ∧ writeValue (Value.vStr "foobar") = "foobar"
    ∧ (∃ c ∈ ("foo=bar" : String).data, (c = ' ' ∨ c = '=' ∨ c = '"' ∨ c.val ≤ 32))
    ∧ writeValue (Value.vStr "foo=bar") = goJSONQuote "foo=bar"
    ∧ writeValue (Value.vErr "fail") = writeValue (Value.vStr "fail")
    ∧ writeValue (Value.vInt 7) = writeValue (Value.vStr (valueSprint (Value.vInt 7))) :=
  ⟨by decide,
   c5_write_value.1 "foobar" (by decide),
   by decide,
   c5_write_value.2.1 "foo=bar" (by decide),
   c5_write_value.2.2.2.1 "fail",
   c5_write_value.2.2.2.2.1 (Value.vInt 7) (fun h => Value.noConfusion h)
     (fun s h => Value.noConfusion h) (fun e h => Value.noConfusion h)⟩

/-! ### Claim C6 — absence of panics in public logging operations -/

/-- Claim C6 names two operations the code can in fact panic in:
`SetFields` on a logger whose default-field map was never initialized ranges
over the argument assigning into the nil map (unlike `SetField`, it performs
no nil check), which panics on the first assignment; and the console
formatter slices `lvl[0:4]` out of the level string, which panics for the
decimal fallback of an out-of-range level such as `5` (one byte long).  This
theorem evaluates both failing inputs. -/
theorem c6_panic_paths :
    Logger.SetFields (New LevelDebug [] (some { buffer := [], cap := 4 }))
        [("foo", Value.vStr "bar")]
      = Except.error "assignment to entry in nil map"
    ∧ (New LevelDebug [] (some { buffer := [], cap := 4 })).fields = none
    ∧ levelString 5 = "5"
    ∧ consoleWrite [(KeyLevel, Value.vStr (levelString 5)), (KeyMessage, Value.vStr "hi")]
      = Except.error "runtime error: slice bounds out of range"
    ∧ Logger.SetField (New LevelDebug [] (some { buffer := [], cap := 4 })) "foo"
        (Value.vStr "bar")
      = { level := LevelDebug, fields := some [("foo", Value.vStr "bar")],
          output := some { buffer := [], cap := 4 } } := by
  refine ⟨rfl, rfl, rfl, ?_, rfl⟩
  decide

/-! ### Claim C8 — console formatter on a non-terminal target -/

/-- Claim C8, as stated, is false: on a non-terminal target the console
output constructor returns the logfmt fallback entirely, so the record
`{message: "hi", level: "info"}` is emitted as `level=info message=hi
time=null\n` (logfmt prints the three reserved keys even when absent, the
missing `time` as `null`), not as `INFO hi\n`. -/
theorem c8_counterexample :
    NewConsoleOutputW false [(KeyMessage, Value.vStr "hi"), (KeyLevel, Value.vStr "info")]
      ≠ Except.ok "INFO hi\n"
    ∧ NewConsoleOutputW false [(KeyMessage, Value.vStr "hi"), (KeyLevel, Value.vStr "info")]
      = Except.ok "level=info message=hi time=null\n" := by
  constructor
  · decide
  · decide

/-- Claim C8 (amended): on a non-terminal target the console output falls
back to the logfmt formatter entirely, and the record
`{message: "hi", level: "info"}` is emitted — without color escape sequences
and with no trailing fields — as exactly `level=info message=hi time=null\n`. -/
theorem c8_nonterminal_output :
    (∀ r : Rec, NewConsoleOutputW false r = Except.ok (logfmtWrite r))
    ∧ NewConsoleOutputW false [(KeyMessage, Value.vStr "hi"), (KeyLevel, Value.vStr "info")]
      = Except.ok "level=info message=hi time=null\n" := by
  constructor
  · intro r
    rfl
  · decide

/-! ### Claim C2 — non-blocking write, drop on full, one diagnostic -/

lemma ocWriteAll_fits (oc : OutputChannel) (rs : List Rec)
    (h : oc.buffer.length + rs.length ≤ oc.cap) :
    ocWriteAll oc rs
      = ({ buffer := oc.buffer ++ rs, cap := oc.cap }, List.replicate rs.length none) := by
  induction rs generalizing oc with
  | nil =>
    simp [ocWriteAll]
  | cons r t ih =>
    have hlt : oc.buffer.length < oc.cap := by
      simp at h
      omega
    have hstep : ocWrite oc r = ({ oc with buffer := oc.buffer ++ [r] }, none) := by
      unfold ocWrite
      rw [if_pos hlt]
    have hrest := ih { oc with buffer := oc.buffer ++ [r] } (by
      simp at h ⊢
      omega)
    simp only [ocWriteAll, hstep, hrest]
    simp [List.replicate_succ]

/-- Claim C2: with a stalled consumer, writing `N` records into an empty
channel of capacity `N` enqueues them all without error; once the buffer is
full, a further `send` through the channel returns immediately (the model's
`Write` is a total function — the non-blocking `select`), drops the record
(the channel state is unchanged, so nothing ever reaches the wrapped sink),
returns the buffer-full error from `Write`, and emits exactly one diagnostic
line for the drop to the critical side logger — never to the primary sink. -/
theorem c2_drop_on_full :
    (∀ (n : Nat) (rs : List Rec), rs.length = n →
       ocWriteAll { buffer := [], cap := n } rs
         = ({ buffer := rs, cap := n }, List.replicate n none))
    ∧ (∀ (oc : OutputChannel) (r : Rec), oc.buffer.length = oc.cap →
       ocWrite oc r = (oc, some ErrBufferFull))
    ∧ (∀ (l : Logger) (oc : OutputChannel) (tm : GoTime) (caller : Option (String × Nat))
       (lv : Level) (msg : String) (f : Option Rec) (e : Option String),
       l.output = some oc → oc.buffer.length = oc.cap → l.level ≤ lv →
       send l tm caller lv msg f e
         = { handed := some (buildRecord tm lv msg caller e f l.fields),
             output := some oc,
             diagnostics := ["send error: " ++ ErrBufferFull] }) := by
  refine ⟨?_, ?_, ?_⟩
  · intro n rs hlen
    have := ocWriteAll_fits { buffer := [], cap := n } rs (by simp [hlen])
    simpa [hlen] using this
  · intro oc r hfull
    unfold ocWrite
    rw [if_neg (by omega)]
  · intro l oc tm caller lv msg f e hout hfull hle
    have hnlt : ¬lv < l.level := not_lt.mpr hle
    have hw : ocWrite oc (buildRecord tm lv msg caller e f l.fields)
        = (oc, some ErrBufferFull) := by
      unfold ocWrite
      rw [if_neg (by omega)]
    simp [send, hout, hnlt, hw]

theorem c2_drop_on_full_witness :
    ([[("k", Value.vInt 1)], [("k", Value.vInt 2)]] : List Rec).length = 2
    ∧ ocWriteAll { buffer := [], cap := 2 } [[("k", Value.vInt 1)], [("k", Value.vInt 2)]]
      = ({ buffer := [[("k", Value.vInt 1)], [("k", Value.vInt 2)]], cap := 2 },
         List.replicate 2 none)
    ∧ send
        ({ level := LevelDebug, fields := none,
           output := some { buffer := [[("k", Value.vInt 1)], [("k", Value.vInt 2)]], cap := 2 } })
        ⟨2020, 1, 2, 3, 4, 5⟩ none LevelInfo "third" none none
      = { handed := some (buildRecord ⟨2020, 1, 2, 3, 4, 5⟩ LevelInfo "third" none none none none),
          output := some { buffer := [[("k", Value.vInt 1)], [("k", Value.vInt 2)]], cap := 2 },
          diagnostics := ["send error: " ++ ErrBufferFull] } :=
  ⟨by decide,
   c2_drop_on_full.1 2 [[("k", Value.vInt 1)], [("k", Value.vInt 2)]] (by decide),
   c2_drop_on_full.2.2
     ({ level := LevelDebug, fields := none,
        output := some { buffer := [[("k", Value.vInt 1)], [("k", Value.vInt 2)]], cap := 2 } })
     ({ buffer := [[("k", Value.vInt 1)], [("k", Value.vInt 2)]], cap := 2 })
     ⟨2020, 1, 2, 3, 4, 5⟩ none LevelInfo "third" none none rfl (by decide) (by decide)⟩

/-! ### Claim C4 — fatal flushes the channel before the exit hook -/

/-- Claim C4: on a channel-backed logger, `Fatal` first sends the fatal
record, then closes (flushes) the channel, delivering every previously
buffered record to the wrapped sink — and the fatal record itself whenever it
was enqueued (level not gated, buffer not full) — before the exit hook, which
is always the last event of the trace. -/
theorem c4_fatal_flush (l : Logger) (oc : OutputChannel) (tm : GoTime)
    (caller : Option (String × Nat)) (args : List Arg)
    (hout : l.output = some oc) :
    (Logger.Fatal l tm caller args).getLast? = some FatalEvent.exited
    ∧ (∀ r ∈ oc.buffer, FatalEvent.delivered r ∈ (Logger.Fatal l tm caller args).dropLast)
    ∧ (l.level ≤ LevelFatal → oc.buffer.length < oc.cap →
        FatalEvent.delivered
            (buildRecord tm LevelFatal (goSprint (extractFields args).1) caller
              (extractFields args).2.2 (extractFields args).2.1 l.fields)
          ∈ (Logger.Fatal l tm caller args).dropLast) := by
  by_cases hlt : LevelFatal < l.level
  · have htrace : Logger.Fatal l tm caller args
        = List.map FatalEvent.delivered oc.buffer ++ [FatalEvent.exited] := by
      simp [Logger.Fatal, levelCall, send, hout, hlt, ocFlush]
    rw [htrace]
    refine ⟨List.getLast?_concat _, ?_, ?_⟩
    · intro r hr
      rw [List.dropLast_concat]
      exact List.mem_map_of_mem FatalEvent.delivered hr
    · intro hle _
      exact absurd hlt (not_lt.mpr hle)
  · by_cases hroom : oc.buffer.length < oc.cap
    · have htrace : Logger.Fatal l tm caller args
          = List.map FatalEvent.delivered
              (oc.buffer ++ [buildRecord tm LevelFatal (goSprint (extractFields args).1) caller
                (extractFields args).2.2 (extractFields args).2.1 l.fields])
            ++ [FatalEvent.exited] := by
        simp [Logger.Fatal, levelCall, send, hout, hlt, ocFlush, ocWrite, hroom]
      rw [htrace]
      refine ⟨List.getLast?_concat _, ?_, ?_⟩
      · intro r hr
        rw [List.dropLast_concat]
        exact List.mem_map_of_mem FatalEvent.delivered (List.mem_append_left _ hr)
      · intro _ _
        rw [List.dropLast_concat]
        exact List.mem_map_of_mem FatalEvent.delivered
          (List.mem_append_right _ (List.mem_singleton_self _))
    · have htrace : Logger.Fatal l tm caller args
          = List.map FatalEvent.delivered oc.buffer ++ [FatalEvent.exited] := by
        simp [Logger.Fatal, levelCall, send, hout, hlt, ocFlush, ocWrite, hroom]
      rw [htrace]
      refine ⟨List.getLast?_concat _, ?_, ?_⟩
      · intro r hr
        rw [List.dropLast_concat]
        exact List.mem_map_of_mem FatalEvent.delivered hr
      · intro _ hroom2
        exact absurd hroom2 hroom

theorem c4_fatal_flush_witness :
    ({ level := LevelDebug, fields := none,
       output := some { buffer := [[("k", Value.vInt 1)]], cap := 4 } } : Logger).output
      = some { buffer := [[("k", Value.vInt 1)]], cap := 4 }
    ∧ (Logger.Fatal
        { level := LevelDebug, fields := none,
          output := some { buffer := [[("k", Value.vInt 1)]], cap := 4 } }
        ⟨2020, 1, 2, 3, 4, 5⟩ none [Arg.str "bye"]).getLast? = some FatalEvent.exited
    ∧ FatalEvent.delivered [("k", Value.vInt 1)]
      ∈ (Logger.Fatal
          { level := LevelDebug, fields := none,
            output := some { buffer := [[("k", Value.vInt 1)]], cap := 4 } }
          ⟨2020, 1, 2, 3, 4, 5⟩ none [Arg.str "bye"]).dropLast
    ∧ FatalEvent.delivered
        (buildRecord ⟨2020, 1, 2, 3, 4, 5⟩ LevelFatal
          (goSprint (extractFields [Arg.str "bye"]).1) none
          (extractFields [Arg.str "bye"]).2.2 (extractFields [Arg.str "bye"]).2.1 none)
      ∈ (Logger.Fatal
          { level := LevelDebug, fields := none,
            output := some { buffer := [[("k", Value.vInt 1)]], cap := 4 } }
          ⟨2020, 1, 2, 3, 4, 5⟩ none [Arg.str "bye"]).dropLast := by
  have h := c4_fatal_flush
    { level := LevelDebug, fields := none,
      output := some { buffer := [[("k", Value.vInt 1)]], cap := 4 } }
    { buffer := [[("k", Value.vInt 1)]], cap := 4 }
    ⟨2020, 1, 2, 3, 4, 5⟩ none [Arg.str "bye"] rfl
  exact ⟨rfl, h.1, h.2.1 [("k", Value.vInt 1)] (by decide), h.2.2 (by decide) (by decide)⟩

/-! ### Claim C7 — logstash output shape -/

lemma logstashWrites_key (kv : String × Value) (p : String × Value)
    (hp : p ∈ logstashWrites kv) :
    (p.1 = "@timestamp" ∧ kv.1 = KeyTime)
    ∨ (p.1 = "line_number" ∧ kv.1 = KeyFile)
    ∨ (p.1 = kv.1 ∧ kv.1 ≠ KeyTime) := by
  unfold logstashWrites at hp
  by_cases h1 : kv.1 = KeyTime
  · rw [if_pos h1] at hp
    simp at hp
    rw [hp]
    exact Or.inl ⟨rfl, h1⟩
  · rw [if_neg h1] at hp
    by_cases h2 : kv.1 = KeyLevel
    · rw [if_pos h2] at hp
      simp at hp
      rw [hp]
      exact Or.inr (Or.inr ⟨h2.symm, h1⟩)
    · rw [if_neg h2] at hp
      by_cases h3 : kv.1 = KeyFile
      · rw [if_pos h3] at hp
        cases hv : kv.2 with
        | vStr s =>
          rw [hv] at hp
          have hp2 : p ∈ (match fileSplit s with
              | some nl => [("line_number", Value.vInt nl.2), (KeyFile, Value.vStr nl.1)]
              | none => [(kv.1, lsFmt (Value.vStr s))]) := hp
          cases hsp : fileSplit s with
          | some nl =>
            rw [hsp] at hp2
            simp at hp2
            rcases hp2 with hp2 | hp2 <;> rw [hp2]
            · exact Or.inr (Or.inl ⟨rfl, h3⟩)
            · exact Or.inr (Or.inr ⟨h3.symm, h1⟩)
          | none =>
            rw [hsp] at hp2
            simp at hp2
            rw [hp2]
            exact Or.inr (Or.inr ⟨rfl, h1⟩)
        | vNull =>
          rw [hv] at hp; simp at hp; rw [hp]
          exact Or.inr (Or.inr ⟨rfl, h1⟩)
        | vInt m =>
          rw [hv] at hp; simp at hp; rw [hp]
          exact Or.inr (Or.inr ⟨rfl, h1⟩)
        | vBool b =>
          rw [hv] at hp; simp at hp; rw [hp]
          exact Or.inr (Or.inr ⟨rfl, h1⟩)
        | vErr e =>
          rw [hv] at hp; simp at hp; rw [hp]
          exact Or.inr (Or.inr ⟨rfl, h1⟩)
        | vTime tt =>
          rw [hv] at hp; simp at hp; rw [hp]
          exact Or.inr (Or.inr ⟨rfl, h1⟩)
        | vOther o =>
          rw [hv] at hp; simp at hp; rw [hp]
          exact Or.inr (Or.inr ⟨rfl, h1⟩)
      · rw [if_neg h3] at hp
        simp at hp
        rw [hp]
        exact Or.inr (Or.inr ⟨rfl, h1⟩)

/-- Claim C7: the JSON object the logstash output emits for a record carries
a fixed `@version` field; the `time` key is renamed `@timestamp` with its
value rendered in RFC3339 (and no `time` key survives); the `level` value is
uppercased; and a `file` field of the form `name:line` is split into a `file`
key holding only the name and a `line_number` key holding the line as an
integer.  The record is a Go map — its keys are unique — and carries none of
the output-reserved keys `@version`, `@timestamp`, `line_number` itself. -/
theorem c7_logstash (r : Rec) (t : GoTime) (s fs : String) (name : String) (n : Int)
    (hnodup : (r.map Prod.fst).Nodup)
    (hver : getK r "@version" = none)
    (hts : getK r "@timestamp" = none)
    (hln : getK r "line_number" = none)
    (htime : getK r KeyTime = some (Value.vTime t))
    (hlevel : getK r KeyLevel = some (Value.vStr s))
    (hfile : getK r KeyFile = some (Value.vStr fs))
    (hsplit : fileSplit fs = some (name, n)) :
    getK (logstashLsf r) "@version" = some (Value.vInt 1)
    ∧ getK (logstashLsf r) "@timestamp" = some (Value.vStr (rfc3339 t))
    ∧ getK (logstashLsf r) KeyTime = none
    ∧ getK (logstashLsf r) KeyLevel = some (Value.vStr (String.mk (s.data.map Char.toUpper)))
    ∧ getK (logstashLsf r) KeyFile = some (Value.vStr name)
    ∧ getK (logstashLsf r) "line_number" = some (Value.vInt n) := by
  have hverE := (getK_eq_none_iff r "@version").mp hver
  have htsE := (getK_eq_none_iff r "@timestamp").mp hts
  have hlnE := (getK_eq_none_iff r "line_number").mp hln
  have hfold : logstashLsf r
      = mergeInto (setK [] "@version" (Value.vInt 1)) (r.flatMap logstashWrites) :=
    foldl_logstashStep _ r
  refine ⟨?_, ?_, ?_, ?_, ?_, ?_⟩
  · -- fixed @version field
    have hnone : lookupLast (r.flatMap logstashWrites) "@version" = none := by
      apply lookupLast_flatMap_none
      intro kv hkv p hp
      rcases logstashWrites_key kv p hp with ⟨h, _⟩ | ⟨h, _⟩ | ⟨h, _⟩
      · rw [h]; decide
      · rw [h]; decide
      · rw [h]; exact hverE kv hkv
    rw [hfold, getK_mergeInto, hnone, getK_setK]
    rw [if_pos rfl]
  · -- time renamed to @timestamp, RFC3339
    have hsrc := lookupLast_flatMap_src r KeyTime "@timestamp" (fun v => some (lsFmt v)) hnodup
      (by
        intro kv hkv hk
        simp [logstashWrites, hk, lookupLast])
      (by
        intro kv hkv hk
        apply lookupLast_eq_none
        intro p hp
        rcases logstashWrites_key kv p hp with ⟨_, hkv2⟩ | ⟨h, _⟩ | ⟨h, _⟩
        · exact absurd hkv2 hk
        · rw [h]; decide
        · rw [h]; exact htsE kv hkv)
    rw [hfold, getK_mergeInto, hsrc, lookupLast_eq_getK r KeyTime hnodup, htime]
    simp [lsFmt]
  · -- no time key survives
    have hnone : lookupLast (r.flatMap logstashWrites) KeyTime = none := by
      apply lookupLast_flatMap_none
      intro kv hkv p hp
      rcases logstashWrites_key kv p hp with ⟨h, _⟩ | ⟨h, _⟩ | ⟨h, hne⟩
      · rw [h]; decide
      · rw [h]; decide
      · rw [h]; exact hne
    rw [hfold, getK_mergeInto, hnone, getK_setK]
    rw [if_neg (by decide)]
    rfl
  · -- level uppercased
    have hsrc := lookupLast_flatMap_src r KeyLevel KeyLevel
      (fun v => some (lsFmt (upperIfStr v))) hnodup
      (by
        intro kv hkv hk
        simp [logstashWrites, hk, lookupLast])
      (by
        intro kv hkv hk
        apply lookupLast_eq_none
        intro p hp
        rcases logstashWrites_key kv p hp with ⟨h, _⟩ | ⟨h, _⟩ | ⟨h, _⟩
        · rw [h]; decide
        · rw [h]; decide
        · rw [h]; exact hk)
    rw [hfold, getK_mergeInto, hsrc, lookupLast_eq_getK r KeyLevel hnodup, hlevel]
    simp [lsFmt, upperIfStr]
  · -- file name only
    have hsrc := lookupLast_flatMap_src r KeyFile KeyFile
      (fun v => some (match v with
        | Value.vStr s0 =>
          match fileSplit s0 with
          | some nl => Value.vStr nl.1
          | none => lsFmt (Value.vStr s0)
        | v0 => lsFmt v0)) hnodup
      (by
        intro kv hkv hk
        cases hv : kv.2 with
        | vStr s0 =>
          cases hsp : fileSplit s0 with
          | some nl => simp [logstashWrites, hk, hv, hsp, lookupLast]
          | none => simp [logstashWrites, hk, hv, hsp, lookupLast]
        | vNull => simp [logstashWrites, hk, hv, lookupLast]
        | vInt m => simp [logstashWrites, hk, hv, lookupLast]
        | vBool b => simp [logstashWrites, hk, hv, lookupLast]
        | vErr e => simp [logstashWrites, hk, hv, lookupLast]
        | vTime tt => simp [logstashWrites, hk, hv, lookupLast]
        | vOther o => simp [logstashWrites, hk, hv, lookupLast])
      (by
        intro kv hkv hk
        apply lookupLast_eq_none
        intro p hp
        rcases logstashWrites_key kv p hp with ⟨h, _⟩ | ⟨h, _⟩ | ⟨h, _⟩
        · rw [h]; decide
        · rw [h]; decide
        · rw [h]; exact hk)
    rw [hfold, getK_mergeInto, hsrc, lookupLast_eq_getK r KeyFile hnodup, hfile]
    simp [hsplit]
  · -- line number as an integer
    have hsrc := lookupLast_flatMap_src r KeyFile "line_number"
      (fun v => match v with
        | Value.vStr s0 =>
          match fileSplit s0 with
          | some nl => some (Value.vInt nl.2)
          | none => none
        | _ => none) hnodup
      (by
        intro kv hkv hk
        cases hv : kv.2 with
        | vStr s0 =>
          cases hsp : fileSplit s0 with
          | some nl => simp [logstashWrites, hk, hv, hsp, lookupLast, KeyFile]
          | none => simp [logstashWrites, hk, hv, hsp, lookupLast, KeyFile]
        | vNull => simp [logstashWrites, hk, hv, lookupLast, KeyFile]
        | vInt m => simp [logstashWrites, hk, hv, lookupLast, KeyFile]
        | vBool b => simp [logstashWrites, hk, hv, lookupLast, KeyFile]
        | vErr e => simp [logstashWrites, hk, hv, lookupLast, KeyFile]
        | vTime tt => simp [logstashWrites, hk, hv, lookupLast, KeyFile]
        | vOther o => simp [logstashWrites, hk, hv, lookupLast, KeyFile])
      (by
        intro kv hkv hk
        apply lookupLast_eq_none
        intro p hp
        rcases logstashWrites_key kv p hp with ⟨h, _⟩ | ⟨_, hkv2⟩ | ⟨h, _⟩
        · rw [h]; decide
        · exact absurd hkv2 hk
        · rw [h]; exact hlnE kv hkv)
    rw [hfold, getK_mergeInto, hsrc, lookupLast_eq_getK r KeyFile hnodup, hfile]
    simp [hsplit]

theorem c7_logstash_witness :
    ([(KeyTime, Value.vTime ⟨2020, 1, 2, 3, 4, 5⟩), (KeyLevel, Value.vStr "info"),
      (KeyFile, Value.vStr "output.go:330"), (KeyMessage, Value.vStr "m")].map
        (Prod.fst (α := String) (β := Value))).Nodup
    ∧ fileSplit "output.go:330" = some ("output.go", 330)
    ∧ getK (logstashLsf [(KeyTime, Value.vTime ⟨2020, 1, 2, 3, 4, 5⟩),
        (KeyLevel, Value.vStr "info"), (KeyFile, Value.vStr "output.go:330"),
        (KeyMessage, Value.vStr "m")]) "@version" = some (Value.vInt 1)
    ∧ getK (logstashLsf [(KeyTime, Value.vTime ⟨2020, 1, 2, 3, 4, 5⟩),
        (KeyLevel, Value.vStr "info"), (KeyFile, Value.vStr "output.go:330"),
        (KeyMessage, Value.vStr "m")]) "@timestamp"
      = some (Value.vStr (rfc3339 ⟨2020, 1, 2, 3, 4, 5⟩))
    ∧ getK (logstashLsf [(KeyTime, Value.vTime ⟨2020, 1, 2, 3, 4, 5⟩),
        (KeyLevel, Value.vStr "info"), (KeyFile, Value.vStr "output.go:330"),
        (KeyMessage, Value.vStr "m")]) KeyTime = none
    ∧ getK (logstashLsf [(KeyTime, Value.vTime ⟨2020, 1, 2, 3, 4, 5⟩),
        (KeyLevel, Value.vStr "info"), (KeyFile, Value.vStr "output.go:330"),
        (KeyMessage, Value.vStr "m")]) KeyLevel
      = some (Value.vStr (String.mk (("info" : String).data.map Char.toUpper)))
    ∧ getK (logstashLsf [(KeyTime, Value.vTime ⟨2020, 1, 2, 3, 4, 5⟩),
        (KeyLevel, Value.vStr "info"), (KeyFile, Value.vStr "output.go:330"),
        (KeyMessage, Value.vStr "m")]) KeyFile = some (Value.vStr "output.go")
    ∧ getK (logstashLsf [(KeyTime, Value.vTime ⟨2020, 1, 2, 3, 4, 5⟩),
        (KeyLevel, Value.vStr "info"), (KeyFile, Value.vStr "output.go:330"),
        (KeyMessage, Value.vStr "m")]) "line_number" = some (Value.vInt 330) := by
  have h := c7_logstash
    [(KeyTime, Value.vTime ⟨2020, 1, 2, 3, 4, 5⟩), (KeyLevel, Value.vStr "info"),
     (KeyFile, Value.vStr "output.go:330"), (KeyMessage, Value.vStr "m")]
    ⟨2020, 1, 2, 3, 4, 5⟩ "info" "output.go:330" "output.go" 330
    (by decide) (by decide) (by decide) (by decide) (by decide) (by decide) (by decide)
    (by decide)
  exact ⟨by decide, by decide, h.1, h.2.1, h.2.2.1, h.2.2.2.1, h.2.2.2.2.1, h.2.2.2.2.2⟩

end Xlog
